import Mathlib

/-!
Broadcast shape resolution of the XPU element-wise kernels.

A shallow embedding of `lite/kernels/xpu/elementwise_compute.cc`:

* `set_shape` and the shape part of `ElementwiseCompute::Run` (lines 140-184),
  with `std::vector<int>` modelled as `List Int`, every unchecked
  `operator[]` modelled as a checked access that ends the run with
  `Err.outOfRange`, and every `CHECK_EQ` modelled as an `Except` error;
* the dispatch part of `Run` (lines 186-195), parameterised by the functor;
* the list of `REGISTER_LITE_KERNEL` entries (lines 291-478).

Where a statement is about what the unchecked code does after an access
behind a vector, `set_shape` is given the vector followed by the cells behind
it, so that the access succeeds and the run goes on to the `CHECK_EQ`.

Machine integers are mathematical integers with explicit wrap-around:
`static_cast<int>` is `castInt` (mod 2^32, signed), `size_t` arithmetic is
mod 2^64.
-/

namespace ElementwiseXpu

/-! ## Errors and machine arithmetic -/

/-- The three ways a run can end abnormally.  `shapeCheck` is the failing
`CHECK_EQ(..., true)` of the shape loops, `computeCheck` the failing
`CHECK_EQ(ret, 0)`, and `outOfRange` stands for an access of a vector outside
its bounds (undefined behaviour in the source). -/
inductive Err where
  | shapeCheck
  | computeCheck
  | outOfRange
  deriving DecidableEq, Repr

/-- The conversion `static_cast<int>(v)`: the value of `v` modulo 2^32, taken
in the signed range [-2^31, 2^31). -/
def castInt (v : Int) : Int :=
  (v + 2147483648) % 4294967296 - 2147483648

/-- The `size_t` difference `a - b` (modulo 2^64). -/
def sizeSub (a b : Nat) : Int :=
  ((a : Int) - (b : Int)) % 18446744073709551616

/-- The index expression `i + axis_tmp` with `i : size_t` and `axis_tmp : int`:
the `int` is converted to `size_t` and the sum is taken modulo 2^64. -/
def index (i : Nat) (axis_tmp : Int) : Nat :=
  (((i : Int) + axis_tmp) % 18446744073709551616).toNat

/-- The element read `v[i]` of a `std::vector<int>`. -/
def vget (v : List Int) (i : Nat) : Except Err Int :=
  match v[i]? with
  | some a => .ok a
  | none => .error .outOfRange

/-- The element write `v[i] = a` of a `std::vector<int>`. -/
def vset (v : List Int) (i : Nat) (a : Int) : Except Err (List Int) :=
  if i < v.length then .ok (v.set i a) else .error .outOfRange

/-- The element read `dim[i]` of a `DDimLite` (64-bit dimension sizes). -/
def dimAt (dim : List Int) (i : Nat) : Except Err Int :=
  match dim[i]? with
  | some d => .ok d
  | none => .error .outOfRange

/-- The loop `for (size_t i = start; i < start + n; i++) body`, threading the
loop state and stopping at the first error. -/
def forLoop {σ : Type} (body : Nat → σ → Except Err σ) : Nat → Nat → σ → Except Err σ
  | 0, _, s => .ok s
  | n + 1, i, s =>
    match body i s with
    | .ok s' => forLoop body n (i + 1) s'
    | .error e => .error e

/-- The argument of the `CHECK_EQ(..., true)` in both shape loops. -/
def compatible (a b : Int) : Prop :=
  a = b ∨ a = 1 ∨ b = 1

instance (a b : Int) : Decidable (compatible a b) := by
  unfold compatible; infer_instance

/-! ## `set_shape` (lines 140-158) -/

/-- The body of the first loop of `set_shape`:
`(*larger_shape)[i] = static_cast<int>(larger_dim[i])`. -/
def copyBody (larger_dim : List Int) (i : Nat) (larger_shape : List Int) :
    Except Err (List Int) :=
  match dimAt larger_dim i with
  | .error e => .error e
  | .ok d => vset larger_shape i (castInt d)

/-- The body of the second loop of `set_shape`: the write of
`(*smaller_shape)[i + axis_tmp]` followed by the `CHECK_EQ`. -/
def placeBody (axis_tmp : Int) (larger_shape smaller_dim : List Int) (i : Nat)
    (smaller_shape : List Int) : Except Err (List Int) :=
  match dimAt smaller_dim i with
  | .error e => .error e
  | .ok d =>
    match vset smaller_shape (index i axis_tmp) (castInt d) with
    | .error e => .error e
    | .ok smaller_shape' =>
      match vget larger_shape (index i axis_tmp) with
      | .error e => .error e
      | .ok l =>
        match vget smaller_shape' (index i axis_tmp) with
        | .error e => .error e
        | .ok s =>
          if compatible l s then .ok smaller_shape' else .error .shapeCheck

/-- The function `set_shape`.  The two vectors behind the pointers are passed
in and the updated pair `(larger_shape, smaller_shape)` is returned. -/
def set_shape (axis : Int) (larger_shape smaller_shape larger_dim smaller_dim : List Int) :
    Except Err (List Int × List Int) :=
  let axis_tmp : Int :=
    if axis = -1 then castInt (sizeSub larger_dim.length smaller_dim.length) else axis
  match forLoop (copyBody larger_dim) larger_dim.length 0 larger_shape with
  | .error e => .error e
  | .ok larger_shape' =>
    match forLoop (placeBody axis_tmp larger_shape' smaller_dim) smaller_dim.length 0
        smaller_shape with
    | .error e => .error e
    | .ok smaller_shape' => .ok (larger_shape', smaller_shape')

/-! ## `ElementwiseCompute::Run` (lines 160-196) -/

/-- The body of the equal-rank loop of `Run` (lines 175-178), on the pair
`(x_shape, y_shape)`. -/
def equalBody (x_dim y_dim : List Int) (i : Nat) (st : List Int × List Int) :
    Except Err (List Int × List Int) :=
  match dimAt x_dim i with
  | .error e => .error e
  | .ok dx =>
    match vset st.1 i (castInt dx) with
    | .error e => .error e
    | .ok x_shape =>
      match dimAt y_dim i with
      | .error e => .error e
      | .ok dy =>
        match vset st.2 i (castInt dy) with
        | .error e => .error e
        | .ok y_shape =>
          match vget x_shape i with
          | .error e => .error e
          | .ok a =>
            match vget y_shape i with
            | .error e => .error e
            | .ok b =>
              if compatible a b then .ok (x_shape, y_shape) else .error .shapeCheck

/-- Lines 170-184 of `Run`: the two all-ones vectors of the output rank and the
three-way branch on the ranks.  The result is the pair `(x_shape, y_shape)`
that line 187 hands to the functor. -/
def resolveShapes (outRank : Nat) (x_dim y_dim : List Int) (axis : Int) :
    Except Err (List Int × List Int) :=
  let x_shape : List Int := List.replicate outRank 1
  let y_shape : List Int := List.replicate outRank 1
  if x_dim.length = y_dim.length then
    forLoop (equalBody x_dim y_dim) x_dim.length 0 (x_shape, y_shape)
  else if x_dim.length > y_dim.length then
    set_shape axis x_shape y_shape x_dim y_dim
  else
    match set_shape axis y_shape x_shape y_dim x_dim with
    | .error e => .error e
    | .ok (y_shape', x_shape') => .ok (x_shape', y_shape')

/-- A tensor as `Run` sees it: its dimension sizes and its data buffer. -/
structure Tensor (δ : Type) where
  dims : List Int
  data : δ

/-- The operator parameters read by `Run`. -/
structure ElementwiseParam (δ : Type) where
  X : Tensor δ
  Y : Tensor δ
  Out : Tensor δ
  axis : Int

/-- What a run leaves behind: how it ended, the contents of the output buffer,
and the shape arguments of every functor call it made, in order. -/
structure RunResult (δ : Type) where
  status : Except Err Unit
  out : δ
  calls : List (List Int × List Int)

/-- The method `ElementwiseCompute::Run`.  The functor `elt_func` receives the
context, the two input buffers, the output buffer and the two shape vectors,
and returns its status code together with the output buffer it leaves. -/
def Run {κ δ : Type} (elt_func : κ → δ → δ → δ → List Int → List Int → Int × δ)
    (ctx : κ) (param : ElementwiseParam δ) : RunResult δ :=
  match resolveShapes param.Out.dims.length param.X.dims param.Y.dims param.axis with
  | .error e => RunResult.mk (.error e) param.Out.data []
  | .ok (x_shape, y_shape) =>
    let r := elt_func ctx param.X.data param.Y.data param.Out.data x_shape y_shape
    RunResult.mk (if r.1 = 0 then .ok () else .error .computeCheck) r.2 [(x_shape, y_shape)]

/-! ## Specification-side notions -/

/-- The entry that position `p` of an aligned vector receives from the
dimensions `dim` placed at offset 0: the converted dimension `dim[p]`, or the
initial 1 beyond the rank. -/
def padAt (dim : List Int) (p : Nat) : Int :=
  match dim[p]? with
  | some d => castInt d
  | none => 1

/-- A dimension size that a 32-bit `int` holds. -/
def fitsInt (d : Int) : Prop :=
  -2147483648 ≤ d ∧ d < 2147483648

instance (d : Int) : Decidable (fitsInt d) := by
  unfold fitsInt; infer_instance

/-- Every dimension size of the shape fits a 32-bit `int`. -/
def DimsFit (dim : List Int) : Prop :=
  ∀ d ∈ dim, fitsInt d

instance (dim : List Int) : Decidable (DimsFit dim) := by
  unfold DimsFit; infer_instance

/-- The offset `axis_eff` of the specification:
`(axis == -1) ? (largerRank - smallerRank) : axis`. -/
def axisEff (largerRank smallerRank : Nat) (axis : Int) : Int :=
  if axis = -1 then (largerRank : Int) - (smallerRank : Int) else axis

/-- The input precondition of shape resolution: the output rank holds both
ranks and is itself representable as an `int`, and the axis is either the
sentinel -1 or non-negative with the smaller shape ending inside the output
rank. -/
def AxisInRange (outRank : Nat) (x_dim y_dim : List Int) (axis : Int) : Prop :=
  max x_dim.length y_dim.length ≤ outRank ∧ outRank < 2147483648 ∧
    (axis = -1 ∨ (0 ≤ axis ∧ axis + ((min x_dim.length y_dim.length : Nat) : Int) ≤ outRank))

instance (outRank : Nat) (x_dim y_dim : List Int) (axis : Int) :
    Decidable (AxisInRange outRank x_dim y_dim axis) := by
  unfold AxisInRange; infer_instance

/-- With the smaller shape placed at offset `off` of the larger one, some
dimension of the smaller shape meets a dimension of the larger shape that
differs from it while neither of the two is 1. -/
def MismatchAt (larger smaller : List Int) (off : Nat) : Prop :=
  ∃ j, j < smaller.length ∧ (off + j < larger.length ∧
    larger.getD (off + j) 1 ≠ smaller.getD j 1 ∧
    larger.getD (off + j) 1 ≠ 1 ∧ smaller.getD j 1 ≠ 1)

instance (larger smaller : List Int) (off : Nat) : Decidable (MismatchAt larger smaller off) := by
  unfold MismatchAt; infer_instance

/-- The shape-incompatibility condition of the specification: at some aligned
position the two operand dimensions differ and neither of them is 1.  Equal
ranks are aligned position by position, unequal ranks at the offset
`axis_eff`. -/
def Mismatch (x_dim y_dim : List Int) (axis : Int) : Prop :=
  if x_dim.length = y_dim.length then MismatchAt x_dim y_dim 0
  else if y_dim.length < x_dim.length then
    MismatchAt x_dim y_dim (axisEff x_dim.length y_dim.length axis).toNat
  else MismatchAt y_dim x_dim (axisEff y_dim.length x_dim.length axis).toNat

instance (x_dim y_dim : List Int) (axis : Int) : Decidable (Mismatch x_dim y_dim axis) := by
  unfold Mismatch; infer_instance

/-! ## The registered kernels (lines 204-478) -/

/-- The element types `T` of the instantiations. -/
inductive ElemType where
  | float
  | float16
  | int
  | int64_t
  deriving DecidableEq, Repr

/-- The functor structs of lines 32-138. -/
inductive OpFunctor where
  | AddFunctor
  | SubFunctor
  | MulFunctor
  | DivFunctor
  | MaxFunctor
  | MinFunctor
  | ModFunctor
  | FloordivFunctor
  | PowFunctor
  deriving DecidableEq, Repr

/-- The precision tags that appear in the file. -/
inductive PrecisionType where
  | kFloat
  | kFP16
  | kInt32
  | kInt64
  deriving DecidableEq, Repr

/-- The registered operator names. -/
inductive OpName where
  | elementwise_add
  | elementwise_sub
  | elementwise_mul
  | elementwise_div
  | elementwise_max
  | elementwise_min
  | elementwise_mod
  | elementwise_floordiv
  | elementwise_pow
  deriving DecidableEq, Repr

/-- An instantiation `ElementwiseCompute<T, Functor, PType>`. -/
structure KernelClass where
  T : ElemType
  functor : OpFunctor
  PType : PrecisionType
  deriving DecidableEq, Repr

/-- The alias `AddFloat32` (a `using` declaration of lines 204-289). -/
def AddFloat32 : KernelClass :=
  KernelClass.mk .float .AddFunctor .kFloat

/-- The alias `AddFloat16` (a `using` declaration of lines 204-289). -/
def AddFloat16 : KernelClass :=
  KernelClass.mk .float16 .AddFunctor .kFP16

/-- The alias `AddInt32` (a `using` declaration of lines 204-289). -/
def AddInt32 : KernelClass :=
  KernelClass.mk .int .AddFunctor .kFloat

/-- The alias `AddInt64` (a `using` declaration of lines 204-289). -/
def AddInt64 : KernelClass :=
  KernelClass.mk .int64_t .AddFunctor .kFloat

/-- The alias `SubFloat32` (a `using` declaration of lines 204-289). -/
def SubFloat32 : KernelClass :=
  KernelClass.mk .float .SubFunctor .kFloat

/-- The alias `SubFloat16` (a `using` declaration of lines 204-289). -/
def SubFloat16 : KernelClass :=
  KernelClass.mk .float16 .SubFunctor .kFP16

/-- The alias `SubInt32` (a `using` declaration of lines 204-289). -/
def SubInt32 : KernelClass :=
  KernelClass.mk .int .SubFunctor .kFloat

/-- The alias `SubInt64` (a `using` declaration of lines 204-289). -/
def SubInt64 : KernelClass :=
  KernelClass.mk .int64_t .SubFunctor .kFloat

/-- The alias `MulFloat32` (a `using` declaration of lines 204-289). -/
def MulFloat32 : KernelClass :=
  KernelClass.mk .float .MulFunctor .kFloat

/-- The alias `MulFloat16` (a `using` declaration of lines 204-289). -/
def MulFloat16 : KernelClass :=
  KernelClass.mk .float16 .MulFunctor .kFP16

/-- The alias `MulInt64` (a `using` declaration of lines 204-289). -/
def MulInt64 : KernelClass :=
  KernelClass.mk .int64_t .MulFunctor .kFloat

/-- The alias `DivFloat32` (a `using` declaration of lines 204-289). -/
def DivFloat32 : KernelClass :=
  KernelClass.mk .float .DivFunctor .kFloat

/-- The alias `DivFloat16` (a `using` declaration of lines 204-289). -/
def DivFloat16 : KernelClass :=
  KernelClass.mk .float16 .DivFunctor .kFP16

/-- The alias `MaxFloat32` (a `using` declaration of lines 204-289). -/
def MaxFloat32 : KernelClass :=
  KernelClass.mk .float .MaxFunctor .kFloat

/-- The alias `MaxFloat16` (a `using` declaration of lines 204-289). -/
def MaxFloat16 : KernelClass :=
  KernelClass.mk .float16 .MaxFunctor .kFP16

/-- The alias `MaxInt32` (a `using` declaration of lines 204-289). -/
def MaxInt32 : KernelClass :=
  KernelClass.mk .int .MaxFunctor .kFloat

/-- The alias `MinFloat32` (a `using` declaration of lines 204-289). -/
def MinFloat32 : KernelClass :=
  KernelClass.mk .float .MinFunctor .kFloat

/-- The alias `MinFloat16` (a `using` declaration of lines 204-289). -/
def MinFloat16 : KernelClass :=
  KernelClass.mk .float16 .MinFunctor .kFP16

/-- The alias `MinInt32` (a `using` declaration of lines 204-289). -/
def MinInt32 : KernelClass :=
  KernelClass.mk .int .MinFunctor .kFloat

/-- The alias `ModFloat32` (a `using` declaration of lines 204-289). -/
def ModFloat32 : KernelClass :=
  KernelClass.mk .float .ModFunctor .kFloat

/-- The alias `ModFloat16` (a `using` declaration of lines 204-289). -/
def ModFloat16 : KernelClass :=
  KernelClass.mk .float16 .ModFunctor .kFP16

/-- The alias `ModInt32` (a `using` declaration of lines 204-289). -/
def ModInt32 : KernelClass :=
  KernelClass.mk .int .ModFunctor .kFloat

/-- The alias `FloordivFloat32` (a `using` declaration of lines 204-289). -/
def FloordivFloat32 : KernelClass :=
  KernelClass.mk .float .FloordivFunctor .kFloat

/-- The alias `FloordivFloat16` (a `using` declaration of lines 204-289). -/
def FloordivFloat16 : KernelClass :=
  KernelClass.mk .float16 .FloordivFunctor .kFP16

/-- The alias `FloordivInt32` (a `using` declaration of lines 204-289). -/
def FloordivInt32 : KernelClass :=
  KernelClass.mk .int .FloordivFunctor .kFloat

/-- The alias `PowFloat32` (a `using` declaration of lines 204-289). -/
def PowFloat32 : KernelClass :=
  KernelClass.mk .float .PowFunctor .kFloat

/-- The alias `PowFloat16` (a `using` declaration of lines 204-289). -/
def PowFloat16 : KernelClass :=
  KernelClass.mk .float16 .PowFunctor .kFP16

/-- The alias `PowInt32` (a `using` declaration of lines 204-289). -/
def PowInt32 : KernelClass :=
  KernelClass.mk .int .PowFunctor .kFloat

/-- The alias `PowInt64` (a `using` declaration of lines 204-289). -/
def PowInt64 : KernelClass :=
  KernelClass.mk .int64_t .PowFunctor .kFloat

/-- One `REGISTER_LITE_KERNEL` entry: operator, precision, kernel class, alias,
and the precision given to `GetTensorTy` for the ports X, Y and Out (`none`
where the call passes the target only).  Every entry has target `kXPU` and
layout `kNCHW`. -/
structure Registration where
  op : OpName
  precision : PrecisionType
  kernel : KernelClass
  aliasName : String
  port : Option PrecisionType
  deriving DecidableEq, Repr

/-- The `REGISTER_LITE_KERNEL` entries of lines 291-478, in source order. -/
def registry : List Registration :=
  [
    Registration.mk .elementwise_add .kFloat AddFloat32 "def" (none),
    Registration.mk .elementwise_add .kFP16 AddFloat16 "DISABLE_XPU1_AddFloat16" (some .kFP16),
    Registration.mk .elementwise_add .kFloat AddInt32 "int32" (some .kInt32),
    Registration.mk .elementwise_add .kFloat AddInt64 "int64" (some .kInt64),
    Registration.mk .elementwise_sub .kFloat SubFloat32 "def" (none),
    Registration.mk .elementwise_sub .kFP16 SubFloat16 "DISABLE_XPU1_SubFloat16" (some .kFP16),
    Registration.mk .elementwise_sub .kFloat SubInt32 "int32" (some .kInt32),
    Registration.mk .elementwise_sub .kFloat SubInt64 "int64" (some .kInt64),
    Registration.mk .elementwise_mul .kFloat MulFloat32 "def" (none),
    Registration.mk .elementwise_mul .kFP16 MulFloat16 "DISABLE_XPU1_MulFloat16" (some .kFP16),
    Registration.mk .elementwise_mul .kFloat MulInt64 "int64" (some .kInt64),
    Registration.mk .elementwise_div .kFloat DivFloat32 "def" (none),
    Registration.mk .elementwise_div .kFP16 DivFloat16 "DISABLE_XPU1_DivFloat16" (some .kFP16),
    Registration.mk .elementwise_max .kFloat MaxFloat32 "def" (none),
    Registration.mk .elementwise_max .kFP16 MaxFloat16 "DISABLE_XPU1_MaxFloat16" (some .kFP16),
    Registration.mk .elementwise_max .kFloat MaxInt32 "int32" (some .kInt32),
    Registration.mk .elementwise_min .kFloat MinFloat32 "def" (none),
    Registration.mk .elementwise_min .kFP16 MinFloat16 "DISABLE_XPU1_MinFloat16" (some .kFP16),
    Registration.mk .elementwise_min .kFloat MinInt32 "int32" (some .kInt32),
    Registration.mk .elementwise_mod .kFloat ModFloat32 "def" (none),
    Registration.mk .elementwise_mod .kFP16 ModFloat16 "DISABLE_XPU1_ModFloat16" (some .kFP16),
    Registration.mk .elementwise_mod .kFloat ModInt32 "int32" (some .kInt32),
    Registration.mk .elementwise_floordiv .kFloat FloordivFloat32 "def" (none),
    Registration.mk .elementwise_floordiv .kFP16 FloordivFloat16 "DISABLE_XPU1_FloordivFloat16" (some .kFP16),
    Registration.mk .elementwise_floordiv .kFloat FloordivInt32 "int32" (some .kInt32),
    Registration.mk .elementwise_pow .kFloat PowFloat32 "def" (some .kFloat),
    Registration.mk .elementwise_pow .kFP16 PowFloat16 "DISABLE_XPU1_PowFloat16" (some .kFP16),
    Registration.mk .elementwise_pow .kFloat PowInt32 "int32" (some .kInt32),
    Registration.mk .elementwise_pow .kFloat PowInt64 "int64" (some .kInt64)]

/-- The element types registered for an operator, in source order. -/
def supportedTypes (op : OpName) : List ElemType :=
  (registry.filter (fun r => r.op = op)).map (fun r => r.kernel.T)

/-! ## Loop lemmas -/

/-- A loop whose body either passes a check `c j` and re-establishes the
invariant, or fails with `e`: the loop succeeds when every check passes and
fails with `e` when some check does not. -/
theorem forLoop_spec {σ : Type} (body : Nat → σ → Except Err σ) (Inv : Nat → σ → Prop)
    (c : Nat → Prop) (e : Err) (n : Nat) :
    ∀ (i : Nat) (s : σ),
      (∀ j s, i ≤ j → j < i + n → Inv j s →
        (c j → ∃ s', body j s = .ok s' ∧ Inv (j + 1) s') ∧ (¬ c j → body j s = .error e)) →
      Inv i s →
      ((∀ j, i ≤ j → j < i + n → c j) →
          ∃ s', forLoop body n i s = .ok s' ∧ Inv (i + n) s') ∧
        ((∃ j, i ≤ j ∧ j < i + n ∧ ¬ c j) → forLoop body n i s = .error e) := by
  induction n with
  | zero =>
    intro i s _ hinv
    refine ⟨fun _ => ⟨s, rfl, by simpa using hinv⟩, ?_⟩
    rintro ⟨j, h1, h2, _⟩
    omega
  | succ n ih =>
    intro i s hstep hinv
    have hi := hstep i s (Nat.le_refl i) (by omega) hinv
    by_cases hc : c i
    · obtain ⟨s1, hb, hinv1⟩ := hi.1 hc
      have ih1 := ih (i + 1) s1
        (fun j t h1 h2 ht => hstep j t (by omega) (by omega) ht) hinv1
      constructor
      · intro hall
        obtain ⟨s2, h2, hinv2⟩ := ih1.1 (fun j h1 h2 => hall j (by omega) (by omega))
        refine ⟨s2, ?_, ?_⟩
        · simp [forLoop, hb, h2]
        · have : i + (n + 1) = i + 1 + n := by omega
          rw [this]; exact hinv2
      · rintro ⟨j, h1, h2, hj⟩
        have hne : j ≠ i := fun h => hj (h ▸ hc)
        have := ih1.2 ⟨j, by omega, by omega, hj⟩
        simp [forLoop, hb, this]
    · constructor
      · intro hall
        exact absurd (hall i (Nat.le_refl i) (by omega)) hc
      · intro _
        simp [forLoop, hi.2 hc]

/-- A property of the loop state that every successful iteration preserves
holds after a successful loop. -/
theorem forLoop_preserves {σ : Type} (body : Nat → σ → Except Err σ) (Inv : σ → Prop)
    (hstep : ∀ j s s', Inv s → body j s = .ok s' → Inv s') (n : Nat) :
    ∀ (i : Nat) (s s' : σ), Inv s → forLoop body n i s = .ok s' → Inv s' := by
  induction n with
  | zero =>
    intro i s s' hinv h
    simp [forLoop] at h
    exact h ▸ hinv
  | succ n ih =>
    intro i s s' hinv h
    unfold forLoop at h
    cases hb : body i s with
    | error e => rw [hb] at h; simp at h
    | ok s1 =>
      rw [hb] at h
      exact ih (i + 1) s1 s' (hstep i s s1 hinv hb) h

/-! ## Machine arithmetic in range -/

theorem castInt_of_fits (d : Int) (h1 : -2147483648 ≤ d) (h2 : d < 2147483648) :
    castInt d = d := by
  unfold castInt; omega

theorem index_of_nat (j off : Nat) (h : off + j < 18446744073709551616) :
    index j (off : Int) = off + j := by
  unfold index; omega

theorem axis_auto (L S : Nat) (h : S ≤ L) (hL : L < 2147483648) :
    castInt (sizeSub L S) = ((L - S : Nat) : Int) := by
  unfold castInt sizeSub; omega

theorem vset_ok (v : List Int) (i : Nat) (a : Int) (h : i < v.length) :
    vset v i a = .ok (v.set i a) := by
  simp [vset, h]

theorem vget_ok (v : List Int) (i : Nat) (a : Int) (h : v[i]? = some a) :
    vget v i = .ok a := by
  simp [vget, h]

theorem dimAt_ok (dim : List Int) (i : Nat) (h : i < dim.length) :
    dimAt dim i = .ok dim[i] ∧ padAt dim i = castInt dim[i] := by
  simp [dimAt, padAt, List.getElem?_eq_getElem h]

theorem padAt_beyond (dim : List Int) (p : Nat) (h : dim.length ≤ p) : padAt dim p = 1 := by
  simp [padAt, List.getElem?_eq_none h]

/-! ## The three loops, in range -/

/-- The first loop of `set_shape` on an all-ones vector that is long enough. -/
theorem copy_loop (dim : List Int) (n0 : Nat) (h : dim.length ≤ n0) :
    ∃ ls, forLoop (copyBody dim) dim.length 0 (List.replicate n0 1) = .ok ls ∧
      ls.length = n0 ∧ ∀ p, p < n0 → ls[p]? = some (padAt dim p) := by
  have key := forLoop_spec (copyBody dim)
    (fun j sh => sh.length = n0 ∧
      ∀ p, p < n0 → sh[p]? = some (if p < j then padAt dim p else 1))
    (fun _ => True) Err.outOfRange dim.length 0 (List.replicate n0 1)
    (by
      intro j sh _ hj hinv
      obtain ⟨hlen, hpt⟩ := hinv
      refine ⟨fun _ => ?_, fun hn => absurd trivial hn⟩
      have hj' : j < dim.length := by omega
      obtain ⟨hd, hp⟩ := dimAt_ok dim j hj'
      refine ⟨sh.set j (castInt dim[j]), ?_, ?_, ?_⟩
      · simp only [copyBody, hd]
        exact vset_ok _ _ _ (by omega)
      · simp [hlen]
      · intro p hp'
        rw [List.getElem?_set]
        by_cases hjp : j = p
        · subst hjp
          simp [hlen, hp', hp]
        · rw [if_neg hjp, hpt p hp']
          congr 1
          by_cases hlt : p < j
          · simp [hlt, show p < j + 1 by omega]
          · simp [hlt, show ¬ p < j + 1 by omega])
    (by
      refine ⟨by simp, fun p hp => ?_⟩
      simp [List.getElem?_replicate, hp])
  obtain ⟨ls, hls, hlen, hpt⟩ := key.1 (fun _ _ _ => trivial)
  refine ⟨ls, hls, hlen, fun p hp => ?_⟩
  rw [hpt p hp, Nat.zero_add]
  by_cases hlt : p < dim.length
  · rw [if_pos hlt]
  · rw [if_neg hlt, padAt_beyond dim p (by omega)]

/-- The second loop of `set_shape` at a non-negative offset that keeps the
smaller shape inside the vectors: it fails the check exactly at the first
overlapped position whose two entries are incompatible. -/
theorem place_loop (ls sdim : List Int) (la : Nat → Int) (n0 off : Nat)
    (hla : ∀ p, p < n0 → ls[p]? = some (la p))
    (hoff : off + sdim.length ≤ n0) (hn : n0 < 18446744073709551616) :
    ((∀ j, j < sdim.length → compatible (la (off + j)) (padAt sdim j)) →
      ∃ ss, forLoop (placeBody (off : Int) ls sdim) sdim.length 0 (List.replicate n0 1) = .ok ss ∧
        ss.length = n0 ∧
        ∀ p, p < n0 → ss[p]? = some (if off ≤ p then padAt sdim (p - off) else 1)) ∧
    ((∃ j, j < sdim.length ∧ ¬ compatible (la (off + j)) (padAt sdim j)) →
      forLoop (placeBody (off : Int) ls sdim) sdim.length 0 (List.replicate n0 1) =
        .error .shapeCheck) := by
  have key := forLoop_spec (placeBody (off : Int) ls sdim)
    (fun j ss => ss.length = n0 ∧
      ∀ p, p < n0 → ss[p]? = some (if off ≤ p ∧ p < off + j then padAt sdim (p - off) else 1))
    (fun j => compatible (la (off + j)) (padAt sdim j)) Err.shapeCheck sdim.length 0
    (List.replicate n0 1)
    (by
      intro j ss _ hj hinv
      obtain ⟨hlen, hpt⟩ := hinv
      have hj' : j < sdim.length := by omega
      obtain ⟨hd, hp⟩ := dimAt_ok sdim j hj'
      have hidx : index j (off : Int) = off + j := index_of_nat j off (by omega)
      have hin : off + j < n0 := by omega
      have hw : vset ss (off + j) (castInt sdim[j]) = .ok (ss.set (off + j) (castInt sdim[j])) :=
        vset_ok _ _ _ (by omega)
      have hr1 : vget ls (off + j) = .ok (la (off + j)) := vget_ok _ _ _ (hla _ hin)
      have hr2 : vget (ss.set (off + j) (castInt sdim[j])) (off + j) = .ok (castInt sdim[j]) :=
        vget_ok _ _ _ (by rw [List.getElem?_set]; simp [hlen, hin])
      have hbody : placeBody (off : Int) ls sdim j ss =
          if compatible (la (off + j)) (padAt sdim j) then .ok (ss.set (off + j) (castInt sdim[j]))
          else .error .shapeCheck := by
        simp only [placeBody, hd, hidx, hw, hr1, hr2, hp]
      constructor
      · intro hc
        refine ⟨ss.set (off + j) (castInt sdim[j]), ?_, ?_, ?_⟩
        · rw [hbody, if_pos hc]
        · simp [hlen]
        · intro p hp'
          rw [List.getElem?_set]
          by_cases hjp : off + j = p
          · subst hjp
            simp [hlen, hin, hp]
          · rw [if_neg hjp, hpt p hp']
            congr 1
            by_cases hlt : off ≤ p ∧ p < off + j
            · rw [if_pos hlt, if_pos ⟨hlt.1, by omega⟩]
            · rw [if_neg hlt, if_neg (by omega)]
      · intro hc
        rw [hbody, if_neg hc])
    (by
      refine ⟨by simp, fun p hp => ?_⟩
      rw [if_neg (by omega)]
      simp [List.getElem?_replicate, hp])
  constructor
  · intro hall
    obtain ⟨ss, hss, hlen, hpt⟩ := key.1 (fun j _ hj => hall j (by omega))
    refine ⟨ss, hss, hlen, fun p hp => ?_⟩
    rw [hpt p hp, Nat.zero_add]
    by_cases h1 : off ≤ p
    · by_cases h2 : p < off + sdim.length
      · rw [if_pos ⟨h1, h2⟩, if_pos h1]
      · rw [if_neg (by omega), if_pos h1, padAt_beyond sdim _ (by omega)]
    · rw [if_neg (by omega), if_neg h1]
  · rintro ⟨j, hj, hc⟩
    exact key.2 ⟨j, Nat.zero_le j, by omega, hc⟩

/-- The function `set_shape` on two all-ones vectors of length `n0`, when
`axis_tmp` evaluates to the natural number `off` and both shapes stay inside
the vectors. -/
theorem set_shape_spec (axis : Int) (larger smaller : List Int) (n0 off : Nat)
    (hL : larger.length ≤ n0) (hoff : off + smaller.length ≤ n0)
    (hn : n0 < 18446744073709551616)
    (hax : (if axis = -1 then castInt (sizeSub larger.length smaller.length) else axis)
      = (off : Int)) :
    ((∀ j, j < smaller.length → compatible (padAt larger (off + j)) (padAt smaller j)) →
      ∃ ls ss, set_shape axis (List.replicate n0 1) (List.replicate n0 1) larger smaller
          = .ok (ls, ss) ∧ ls.length = n0 ∧ ss.length = n0 ∧
        (∀ p, p < n0 → ls[p]? = some (padAt larger p)) ∧
        (∀ p, p < n0 → ss[p]? = some (if off ≤ p then padAt smaller (p - off) else 1))) ∧
    ((∃ j, j < smaller.length ∧ ¬ compatible (padAt larger (off + j)) (padAt smaller j)) →
      set_shape axis (List.replicate n0 1) (List.replicate n0 1) larger smaller
        = .error .shapeCheck) := by
  obtain ⟨ls, hls, hlen, hpt⟩ := copy_loop larger n0 hL
  have hp := place_loop ls smaller (padAt larger) n0 off hpt hoff hn
  constructor
  · intro hall
    obtain ⟨ss, hss, hslen, hspt⟩ := hp.1 hall
    refine ⟨ls, ss, ?_, hlen, hslen, hpt, hspt⟩
    simp only [set_shape, hax, hls, hss]
  · intro hex
    have hf := hp.2 hex
    simp only [set_shape, hax, hls, hf]

/-- The equal-rank loop of `Run` on two all-ones vectors of length `n0` that
hold the common rank. -/
theorem equal_loop (x_dim y_dim : List Int) (n0 : Nat) (hxy : x_dim.length = y_dim.length)
    (hx : x_dim.length ≤ n0) :
    ((∀ j, j < x_dim.length → compatible (padAt x_dim j) (padAt y_dim j)) →
      ∃ xs ys, forLoop (equalBody x_dim y_dim) x_dim.length 0
          (List.replicate n0 1, List.replicate n0 1) = .ok (xs, ys) ∧
        xs.length = n0 ∧ ys.length = n0 ∧
        (∀ p, p < n0 → xs[p]? = some (padAt x_dim p)) ∧
        (∀ p, p < n0 → ys[p]? = some (padAt y_dim p))) ∧
    ((∃ j, j < x_dim.length ∧ ¬ compatible (padAt x_dim j) (padAt y_dim j)) →
      forLoop (equalBody x_dim y_dim) x_dim.length 0
        (List.replicate n0 1, List.replicate n0 1) = .error .shapeCheck) := by
  have key := forLoop_spec (equalBody x_dim y_dim)
    (fun j st => st.1.length = n0 ∧ st.2.length = n0 ∧
      (∀ p, p < n0 → st.1[p]? = some (if p < j then padAt x_dim p else 1)) ∧
      (∀ p, p < n0 → st.2[p]? = some (if p < j then padAt y_dim p else 1)))
    (fun j => compatible (padAt x_dim j) (padAt y_dim j)) Err.shapeCheck x_dim.length 0
    (List.replicate n0 1, List.replicate n0 1)
    (by
      intro j st _ hj hinv
      obtain ⟨xs, ys⟩ := st
      obtain ⟨hxl, hyl, hxp, hyp⟩ := hinv
      simp only at hxl hyl hxp hyp
      have hjx : j < x_dim.length := by omega
      have hjy : j < y_dim.length := by omega
      have hin : j < n0 := by omega
      obtain ⟨hdx, hpx⟩ := dimAt_ok x_dim j hjx
      obtain ⟨hdy, hpy⟩ := dimAt_ok y_dim j hjy
      have hwx : vset xs j (castInt x_dim[j]) = .ok (xs.set j (castInt x_dim[j])) :=
        vset_ok _ _ _ (by omega)
      have hwy : vset ys j (castInt y_dim[j]) = .ok (ys.set j (castInt y_dim[j])) :=
        vset_ok _ _ _ (by omega)
      have hrx : vget (xs.set j (castInt x_dim[j])) j = .ok (castInt x_dim[j]) :=
        vget_ok _ _ _ (by rw [List.getElem?_set]; simp [hxl, hin])
      have hry : vget (ys.set j (castInt y_dim[j])) j = .ok (castInt y_dim[j]) :=
        vget_ok _ _ _ (by rw [List.getElem?_set]; simp [hyl, hin])
      have hbody : equalBody x_dim y_dim j (xs, ys) =
          if compatible (padAt x_dim j) (padAt y_dim j) then
            .ok (xs.set j (castInt x_dim[j]), ys.set j (castInt y_dim[j]))
          else .error .shapeCheck := by
        simp only [equalBody, hdx, hdy, hwx, hwy, hrx, hry, hpx, hpy]
      have hupd : ∀ (v : List Int) (dim : List Int) (d : Int), v.length = n0 →
          padAt dim j = d →
          (∀ p, p < n0 → v[p]? = some (if p < j then padAt dim p else 1)) →
          ∀ p, p < n0 → (v.set j d)[p]? = some (if p < j + 1 then padAt dim p else 1) := by
        intro v dim d hv hd hvp p hp'
        rw [List.getElem?_set]
        by_cases hjp : j = p
        · subst hjp
          simp [hv, hin, hd]
        · rw [if_neg hjp, hvp p hp']
          congr 1
          by_cases hlt : p < j
          · rw [if_pos hlt, if_pos (by omega)]
          · rw [if_neg hlt, if_neg (by omega)]
      constructor
      · intro hc
        refine ⟨(xs.set j (castInt x_dim[j]), ys.set j (castInt y_dim[j])), ?_, ?_, ?_, ?_, ?_⟩
        · rw [hbody, if_pos hc]
        · simp [hxl]
        · simp [hyl]
        · exact hupd xs x_dim _ hxl hpx hxp
        · exact hupd ys y_dim _ hyl hpy hyp
      · intro hc
        rw [hbody, if_neg hc])
    (by
      refine ⟨by simp, by simp, fun p hp => ?_, fun p hp => ?_⟩ <;>
        simp [List.getElem?_replicate, hp])
  have hfin : ∀ (dim : List Int) (p : Nat), dim.length = x_dim.length →
      (if p < 0 + x_dim.length then padAt dim p else 1) = padAt dim p := by
    intro dim p hd
    rw [Nat.zero_add]
    by_cases hlt : p < x_dim.length
    · rw [if_pos hlt]
    · rw [if_neg hlt, padAt_beyond dim p (by omega)]
  constructor
  · intro hall
    obtain ⟨⟨xs, ys⟩, hst, hxl, hyl, hxp, hyp⟩ := key.1 (fun j _ hj => hall j (by omega))
    refine ⟨xs, ys, hst, hxl, hyl, fun p hp => ?_, fun p hp => ?_⟩
    · have := hxp p hp
      simp only at this
      rw [this, hfin x_dim p rfl]
    · have := hyp p hp
      simp only at this
      rw [this, hfin y_dim p hxy.symm]
  · rintro ⟨j, hj, hc⟩
    exact key.2 ⟨j, Nat.zero_le j, by omega, hc⟩

/-! ## Shape resolution, in range -/

theorem castInt_one : castInt 1 = 1 := by
  unfold castInt; omega

theorem padAt_eq_cast (dim : List Int) (p : Nat) : padAt dim p = castInt (dim.getD p 1) := by
  unfold padAt
  rw [List.getD_eq_getElem?_getD]
  cases dim[p]? with
  | none => simp [castInt_one]
  | some d => simp

theorem padAt_of_fits (dim : List Int) (h : DimsFit dim) (p : Nat) :
    padAt dim p = dim.getD p 1 := by
  rw [padAt_eq_cast]
  by_cases hp : p < dim.length
  · have hmem : dim.getD p 1 ∈ dim := by
      rw [List.getD_eq_getElem _ _ hp]
      exact List.getElem_mem hp
    obtain ⟨h1, h2⟩ := h _ hmem
    exact castInt_of_fits _ h1 h2
  · rw [List.getD_eq_default _ _ (by omega)]
    exact castInt_one

theorem compatible_cast (a b : Int) (h : compatible a b) :
    compatible (castInt a) (castInt b) := by
  rcases h with h | h | h
  · exact Or.inl (by rw [h])
  · exact Or.inr (Or.inl (by rw [h, castInt_one]))
  · exact Or.inr (Or.inr (by rw [h, castInt_one]))

/-- Shapes without a mismatch pass every check of the code, whatever the
dimension sizes. -/
theorem checks_pass_of_no_mismatch (larger smaller : List Int) (off : Nat)
    (h : ¬ MismatchAt larger smaller off) :
    ∀ j, j < smaller.length → compatible (padAt larger (off + j)) (padAt smaller j) := by
  intro j hj
  rw [padAt_eq_cast, padAt_eq_cast]
  apply compatible_cast
  by_cases hin : off + j < larger.length
  · by_contra hc
    apply h
    refine ⟨j, hj, hin, ?_, ?_, ?_⟩
    · exact fun e => hc (Or.inl e)
    · exact fun e => hc (Or.inr (Or.inl e))
    · exact fun e => hc (Or.inr (Or.inr e))
  · exact Or.inr (Or.inl (List.getD_eq_default _ _ (by omega)))

/-- For dimension sizes that fit an `int`, a failing check of the code is a
mismatch of the shapes. -/
theorem mismatch_iff_check_fails (larger smaller : List Int) (off : Nat)
    (hl : DimsFit larger) (hs : DimsFit smaller) :
    MismatchAt larger smaller off ↔
      ∃ j, j < smaller.length ∧ ¬ compatible (padAt larger (off + j)) (padAt smaller j) := by
  constructor
  · rintro ⟨j, hj, hin, h1, h2, h3⟩
    refine ⟨j, hj, ?_⟩
    rw [padAt_of_fits larger hl, padAt_of_fits smaller hs]
    rintro (h | h | h)
    · exact h1 h
    · exact h2 h
    · exact h3 h
  · intro hex
    by_contra hno
    obtain ⟨j, hj, hc⟩ := hex
    exact hc (checks_pass_of_no_mismatch larger smaller off hno j hj)

/-- In range, the `axis_tmp` of `set_shape` is the offset `axis_eff` of the
specification, a natural number that keeps the smaller shape inside the
output rank. -/
theorem axis_tmp_eq (n0 L S : Nat) (axis : Int) (hS : S < L) (hL : L ≤ n0)
    (hn : n0 < 2147483648) (hax : axis = -1 ∨ (0 ≤ axis ∧ axis + (S : Int) ≤ n0)) :
    (if axis = -1 then castInt (sizeSub L S) else axis) = ((axisEff L S axis).toNat : Int) ∧
      (axisEff L S axis).toNat + S ≤ n0 := by
  unfold axisEff
  by_cases h : axis = -1
  · rw [if_pos h, if_pos h, axis_auto L S (by omega) (by omega)]
    omega
  · rw [if_neg h, if_neg h]
    omega

/-- The equal-rank branch of shape resolution. -/
theorem resolve_equal (n0 : Nat) (x_dim y_dim : List Int) (axis : Int)
    (hxy : x_dim.length = y_dim.length) (hx : x_dim.length ≤ n0) :
    ((∀ j, j < y_dim.length → compatible (padAt x_dim (0 + j)) (padAt y_dim j)) →
      ∃ xs ys, resolveShapes n0 x_dim y_dim axis = .ok (xs, ys) ∧
        xs.length = n0 ∧ ys.length = n0 ∧
        (∀ p, p < n0 → xs[p]? = some (padAt x_dim p)) ∧
        (∀ p, p < n0 → ys[p]? = some (padAt y_dim p))) ∧
    ((∃ j, j < y_dim.length ∧ ¬ compatible (padAt x_dim (0 + j)) (padAt y_dim j)) →
      resolveShapes n0 x_dim y_dim axis = .error .shapeCheck) := by
  have h := equal_loop x_dim y_dim n0 hxy hx
  simp only [resolveShapes, if_pos hxy, Nat.zero_add]
  rw [← hxy]
  exact h

/-- The branch of shape resolution in which X has the larger rank. -/
theorem resolve_xlarger (n0 : Nat) (x_dim y_dim : List Int) (axis : Int)
    (hlt : y_dim.length < x_dim.length) (hr : AxisInRange n0 x_dim y_dim axis) :
    ((∀ j, j < y_dim.length → compatible
        (padAt x_dim ((axisEff x_dim.length y_dim.length axis).toNat + j)) (padAt y_dim j)) →
      ∃ xs ys, resolveShapes n0 x_dim y_dim axis = .ok (xs, ys) ∧
        xs.length = n0 ∧ ys.length = n0 ∧
        (∀ p, p < n0 → xs[p]? = some (padAt x_dim p)) ∧
        (∀ p, p < n0 → ys[p]? = some
          (if (axisEff x_dim.length y_dim.length axis).toNat ≤ p then
            padAt y_dim (p - (axisEff x_dim.length y_dim.length axis).toNat) else 1))) ∧
    ((∃ j, j < y_dim.length ∧ ¬ compatible
        (padAt x_dim ((axisEff x_dim.length y_dim.length axis).toNat + j)) (padAt y_dim j)) →
      resolveShapes n0 x_dim y_dim axis = .error .shapeCheck) := by
  obtain ⟨hmax, hn, hax⟩ := hr
  have hL : x_dim.length ≤ n0 := le_trans (le_max_left _ _) hmax
  have hmin : min x_dim.length y_dim.length = y_dim.length := by omega
  rw [hmin] at hax
  obtain ⟨h1, h2⟩ := axis_tmp_eq n0 x_dim.length y_dim.length axis hlt hL hn hax
  have h := set_shape_spec axis x_dim y_dim n0 _ hL h2 (by omega) h1
  have hne : ¬ x_dim.length = y_dim.length := by omega
  simp only [resolveShapes, if_neg hne, gt_iff_lt, if_pos hlt]
  exact h

/-- The branch of shape resolution in which Y has the larger rank. -/
theorem resolve_ylarger (n0 : Nat) (x_dim y_dim : List Int) (axis : Int)
    (hlt : x_dim.length < y_dim.length) (hr : AxisInRange n0 x_dim y_dim axis) :
    ((∀ j, j < x_dim.length → compatible
        (padAt y_dim ((axisEff y_dim.length x_dim.length axis).toNat + j)) (padAt x_dim j)) →
      ∃ xs ys, resolveShapes n0 x_dim y_dim axis = .ok (xs, ys) ∧
        xs.length = n0 ∧ ys.length = n0 ∧
        (∀ p, p < n0 → ys[p]? = some (padAt y_dim p)) ∧
        (∀ p, p < n0 → xs[p]? = some
          (if (axisEff y_dim.length x_dim.length axis).toNat ≤ p then
            padAt x_dim (p - (axisEff y_dim.length x_dim.length axis).toNat) else 1))) ∧
    ((∃ j, j < x_dim.length ∧ ¬ compatible
        (padAt y_dim ((axisEff y_dim.length x_dim.length axis).toNat + j)) (padAt x_dim j)) →
      resolveShapes n0 x_dim y_dim axis = .error .shapeCheck) := by
  obtain ⟨hmax, hn, hax⟩ := hr
  have hL : y_dim.length ≤ n0 := le_trans (le_max_right _ _) hmax
  have hmin : min x_dim.length y_dim.length = x_dim.length := by omega
  rw [hmin] at hax
  obtain ⟨h1, h2⟩ := axis_tmp_eq n0 y_dim.length x_dim.length axis hlt hL hn hax
  have h := set_shape_spec axis y_dim x_dim n0 _ hL h2 (by omega) h1
  have hne : ¬ x_dim.length = y_dim.length := by omega
  have hng : ¬ y_dim.length < x_dim.length := by omega
  constructor
  · intro hall
    obtain ⟨ls, ss, hs, hl1, hl2, hp1, hp2⟩ := h.1 hall
    refine ⟨ss, ls, ?_, hl2, hl1, hp1, hp2⟩
    simp only [resolveShapes, if_neg hne, gt_iff_lt, if_neg hng, hs]
  · intro hex
    have hf := h.2 hex
    simp only [resolveShapes, if_neg hne, gt_iff_lt, if_neg hng, hf]

/-- In range, shape resolution is decided by the checks at the overlapped
positions of one larger and one smaller shape: it succeeds when all of them
pass and fails the shape check when one of them does not. -/
theorem resolve_cases (n0 : Nat) (x_dim y_dim : List Int) (axis : Int)
    (hr : AxisInRange n0 x_dim y_dim axis) :
    ∃ (larger smaller : List Int) (off : Nat),
      (Mismatch x_dim y_dim axis ↔ MismatchAt larger smaller off) ∧
      (DimsFit x_dim → DimsFit y_dim → DimsFit larger ∧ DimsFit smaller) ∧
      ((∀ j, j < smaller.length → compatible (padAt larger (off + j)) (padAt smaller j)) →
        ∃ xs ys, resolveShapes n0 x_dim y_dim axis = .ok (xs, ys)) ∧
      ((∃ j, j < smaller.length ∧ ¬ compatible (padAt larger (off + j)) (padAt smaller j)) →
        resolveShapes n0 x_dim y_dim axis = .error .shapeCheck) := by
  by_cases hxy : x_dim.length = y_dim.length
  · have hx : x_dim.length ≤ n0 := le_trans (le_max_left _ _) hr.1
    have h := resolve_equal n0 x_dim y_dim axis hxy hx
    refine ⟨x_dim, y_dim, 0, ?_, fun a b => ⟨a, b⟩, ?_, h.2⟩
    · simp only [Mismatch, if_pos hxy]
    · intro hall
      obtain ⟨xs, ys, hs, _⟩ := h.1 hall
      exact ⟨xs, ys, hs⟩
  · by_cases hlt : y_dim.length < x_dim.length
    · have h := resolve_xlarger n0 x_dim y_dim axis hlt hr
      refine ⟨x_dim, y_dim, _, ?_, fun a b => ⟨a, b⟩, ?_, h.2⟩
      · simp only [Mismatch, if_neg hxy, if_pos hlt]
      · intro hall
        obtain ⟨xs, ys, hs, _⟩ := h.1 hall
        exact ⟨xs, ys, hs⟩
    · have hgt : x_dim.length < y_dim.length := by omega
      have h := resolve_ylarger n0 x_dim y_dim axis hgt hr
      refine ⟨y_dim, x_dim, _, ?_, fun a b => ⟨b, a⟩, ?_, h.2⟩
      · simp only [Mismatch, if_neg hxy, if_neg hlt]
      · intro hall
        obtain ⟨xs, ys, hs, _⟩ := h.1 hall
        exact ⟨xs, ys, hs⟩

/-! ## What a successful iteration tells -/

theorem vset_inv (v v' : List Int) (i : Nat) (a : Int) (h : vset v i a = .ok v') :
    i < v.length ∧ v' = v.set i a := by
  unfold vset at h
  split at h
  · rename_i hlt
    injection h with h
    exact ⟨hlt, h.symm⟩
  · cases h

theorem vget_inv (v : List Int) (i : Nat) (a : Int) (h : vget v i = .ok a) : v[i]? = some a := by
  unfold vget at h
  split at h
  · rename_i b hb
    injection h with h
    rw [hb, h]
  · cases h

theorem copyBody_inv (dim sh sh' : List Int) (i : Nat) (h : copyBody dim i sh = .ok sh') :
    i < sh.length ∧ sh'.length = sh.length := by
  unfold copyBody at h
  split at h
  · cases h
  · obtain ⟨h1, h2⟩ := vset_inv _ _ _ _ h
    exact ⟨h1, by rw [h2, List.length_set]⟩

theorem placeBody_inv (axis_tmp : Int) (ls sd ss ss' : List Int) (i : Nat)
    (h : placeBody axis_tmp ls sd i ss = .ok ss') :
    ∃ (q : Nat) (c l : Int), q = index i axis_tmp ∧ q < ss.length ∧ ss' = ss.set q c ∧
      ls[q]? = some l ∧ compatible l c := by
  unfold placeBody at h
  split at h
  · cases h
  · split at h
    · cases h
    · rename_i _ d hd _ sm hw
      obtain ⟨hq, hsm⟩ := vset_inv _ _ _ _ hw
      split at h
      · cases h
      · rename_i _ l hl
        split at h
        · cases h
        · rename_i _ s hs
          split at h
          · rename_i hc
            injection h with h
            have hs' := vget_inv _ _ _ hs
            rw [hsm, List.getElem?_set] at hs'
            simp [hq] at hs'
            refine ⟨_, castInt d, l, rfl, hq, by rw [← h, hsm], vget_inv _ _ _ hl, ?_⟩
            rw [hs']; exact hc
          · cases h

theorem equalBody_inv (x_dim y_dim xs ys : List Int) (st' : List Int × List Int) (i : Nat)
    (h : equalBody x_dim y_dim i (xs, ys) = .ok st') :
    ∃ (cx cy : Int), i < xs.length ∧ i < ys.length ∧ st' = (xs.set i cx, ys.set i cy) ∧
      compatible cx cy := by
  unfold equalBody at h
  split at h
  · cases h
  · split at h
    · cases h
    · rename_i _ dx hdx _ x1 hwx
      obtain ⟨hqx, hx1⟩ := vset_inv _ _ _ _ hwx
      split at h
      · cases h
      · split at h
        · cases h
        · rename_i _ dy hdy _ y1 hwy
          obtain ⟨hqy, hy1⟩ := vset_inv _ _ _ _ hwy
          split at h
          · cases h
          · rename_i _ a ha
            split at h
            · cases h
            · rename_i _ b hb
              split at h
              · rename_i hc
                injection h with h
                have ha' := vget_inv _ _ _ ha
                have hb' := vget_inv _ _ _ hb
                rw [hx1, List.getElem?_set] at ha'
                rw [hy1, List.getElem?_set] at hb'
                simp at hqx hqy
                simp [hqx] at ha'
                simp [hqy] at hb'
                refine ⟨castInt dx, castInt dy, hqx, hqy, by rw [← h, hx1, hy1], ?_⟩
                rw [ha', hb']; exact hc
              · cases h

/-- In a successful loop every iteration succeeded, on a state that satisfies
any property the iterations preserve. -/
theorem forLoop_ok_iter {σ : Type} (body : Nat → σ → Except Err σ) (Inv : σ → Prop)
    (hstep : ∀ j s s', Inv s → body j s = .ok s' → Inv s') (n : Nat) :
    ∀ (i : Nat) (s s' : σ), Inv s → forLoop body n i s = .ok s' →
      ∀ j, i ≤ j → j < i + n → ∃ t t', Inv t ∧ body j t = .ok t' := by
  induction n with
  | zero =>
    intro i s s' _ _ j h1 h2
    omega
  | succ n ih =>
    intro i s s' hinv h j h1 h2
    unfold forLoop at h
    cases hb : body i s with
    | error e => rw [hb] at h; cases h
    | ok s1 =>
      rw [hb] at h
      by_cases hji : j = i
      · subst hji
        exact ⟨s, s1, hinv, hb⟩
      · exact ih (i + 1) s1 s' (hstep i s s1 hinv hb) h j (by omega) (by omega)

/-- The first loop of `set_shape` keeps the length of the vector, and it can
only succeed on a vector that holds the whole shape. -/
theorem copy_loop_inv (dim sh ls : List Int)
    (h : forLoop (copyBody dim) dim.length 0 sh = .ok ls) :
    ls.length = sh.length ∧ dim.length ≤ sh.length := by
  have hstep : ∀ (j : Nat) (s s' : List Int), s.length = sh.length →
      copyBody dim j s = .ok s' → s'.length = sh.length := by
    intro j s s' hs hb
    rw [(copyBody_inv dim s s' j hb).2, hs]
  refine ⟨forLoop_preserves (copyBody dim) (fun s => s.length = sh.length) hstep
    dim.length 0 sh ls rfl h, ?_⟩
  by_cases h0 : dim.length = 0
  · omega
  · obtain ⟨t, t', ht, hb⟩ := forLoop_ok_iter (copyBody dim) (fun s => s.length = sh.length)
      hstep dim.length 0 sh ls rfl h (dim.length - 1) (by omega) (by omega)
    have := (copyBody_inv dim t t' _ hb).1
    have ht' : t.length = sh.length := ht
    omega

/-- The broadcast invariant of a pair of aligned vectors of length `n`. -/
theorem pair_inv_init (n : Nat) (ls : List Int) (hls : ls.length = n) :
    ∀ i, i < n → ∃ u v, ls[i]? = some u ∧ (List.replicate n (1 : Int))[i]? = some v ∧
      compatible u v := by
  intro i hi
  refine ⟨ls[i], 1, List.getElem?_eq_getElem (by omega), ?_, Or.inr (Or.inr rfl)⟩
  simp [List.getElem?_replicate, hi]

/-- A successful `set_shape` on two all-ones vectors of length `n` returns
two vectors of length `n` whose entries are pairwise compatible. -/
theorem set_shape_pair_inv (axis : Int) (n : Nat) (larger smaller ls ss : List Int)
    (h : set_shape axis (List.replicate n 1) (List.replicate n 1) larger smaller = .ok (ls, ss)) :
    ls.length = n ∧ ss.length = n ∧
      ∀ i, i < n → ∃ u v, ls[i]? = some u ∧ ss[i]? = some v ∧ compatible u v := by
  unfold set_shape at h
  simp only at h
  split at h
  · cases h
  · rename_i _ ls1 hc
    split at h
    · cases h
    · rename_i _ ss1 hp
      injection h with h
      injection h with h1 h2
      subst h1; subst h2
      have hlen : ls1.length = n := by
        rw [(copy_loop_inv larger _ ls1 hc).1, List.length_replicate]
      have := forLoop_preserves _
        (fun s : List Int => s.length = n ∧
          ∀ i, i < n → ∃ u v, ls1[i]? = some u ∧ s[i]? = some v ∧ compatible u v)
        (by
          intro j s s' hinv hb
          obtain ⟨hsl, hpt⟩ := hinv
          obtain ⟨q, c, l, _, hq, hs', hl, hcmp⟩ := placeBody_inv _ _ _ _ _ _ hb
          refine ⟨by rw [hs', List.length_set, hsl], fun i hi => ?_⟩
          by_cases hqi : q = i
          · subst hqi
            refine ⟨l, c, hl, ?_, hcmp⟩
            rw [hs', List.getElem?_set]
            simp [hq]
          · obtain ⟨u, v, hu, hv, huv⟩ := hpt i hi
            refine ⟨u, v, hu, ?_, huv⟩
            rw [hs', List.getElem?_set, if_neg hqi, hv])
        smaller.length 0 (List.replicate n 1) ss1
        ⟨by simp, pair_inv_init n ls1 hlen⟩ hp
      exact ⟨hlen, this.1, this.2⟩

/-- A successful equal-rank loop on two all-ones vectors of length `n` returns
two vectors of length `n` whose entries are pairwise compatible. -/
theorem equal_loop_pair_inv (n m : Nat) (x_dim y_dim xs ys : List Int)
    (h : forLoop (equalBody x_dim y_dim) m 0 (List.replicate n 1, List.replicate n 1)
      = .ok (xs, ys)) :
    xs.length = n ∧ ys.length = n ∧
      ∀ i, i < n → ∃ u v, xs[i]? = some u ∧ ys[i]? = some v ∧ compatible u v := by
  have := forLoop_preserves (equalBody x_dim y_dim)
    (fun st : List Int × List Int => st.1.length = n ∧ st.2.length = n ∧
      ∀ i, i < n → ∃ u v, st.1[i]? = some u ∧ st.2[i]? = some v ∧ compatible u v)
    (by
      intro j st st' hinv hb
      obtain ⟨a, b⟩ := st
      obtain ⟨hal, hbl, hpt⟩ := hinv
      simp only at hal hbl hpt
      obtain ⟨cx, cy, hqa, hqb, hst, hcmp⟩ := equalBody_inv _ _ _ _ _ _ hb
      subst hst
      refine ⟨by simp [hal], by simp [hbl], fun i hi => ?_⟩
      by_cases hji : j = i
      · subst hji
        refine ⟨cx, cy, ?_, ?_, hcmp⟩
        · simp only; rw [List.getElem?_set]; simp [hqa]
        · simp only; rw [List.getElem?_set]; simp [hqb]
      · obtain ⟨u, v, hu, hv, huv⟩ := hpt i hi
        refine ⟨u, v, ?_, ?_, huv⟩
        · simp only; rw [List.getElem?_set, if_neg hji, hu]
        · simp only; rw [List.getElem?_set, if_neg hji, hv])
    m 0 (List.replicate n 1, List.replicate n 1) (xs, ys)
    ⟨by simp, by simp, pair_inv_init n _ (by simp)⟩ h
  exact this

/-! ## Exchange of the operands -/

theorem compatible_comm (a b : Int) : compatible a b ↔ compatible b a := by
  unfold compatible
  constructor <;> rintro (h | h | h)
  · exact Or.inl h.symm
  · exact Or.inr (Or.inr h)
  · exact Or.inr (Or.inl h)
  · exact Or.inl h.symm
  · exact Or.inr (Or.inr h)
  · exact Or.inr (Or.inl h)

theorem equalBody_swap (x_dim y_dim a b : List Int) (i : Nat) :
    equalBody y_dim x_dim i (b, a) = (equalBody x_dim y_dim i (a, b)).map Prod.swap := by
  unfold equalBody dimAt vset vget
  cases hx : x_dim[i]? <;> cases hy : y_dim[i]? <;>
    by_cases ha : i < a.length <;> by_cases hb : i < b.length <;>
    simp [ha, hb, Except.map]
  rename_i dx dy
  by_cases hc : compatible (castInt dx) (castInt dy)
  · simp [hc, (compatible_comm _ _).1 hc]
  · have hc' : ¬ compatible (castInt dy) (castInt dx) :=
      fun h => hc ((compatible_comm _ _).1 h)
    simp [hc, hc']

theorem equal_loop_swap (x_dim y_dim : List Int) (n : Nat) :
    ∀ (i : Nat) (a b : List Int),
      forLoop (equalBody y_dim x_dim) n i (b, a)
        = (forLoop (equalBody x_dim y_dim) n i (a, b)).map Prod.swap := by
  induction n with
  | zero => intro i a b; rfl
  | succ n ih =>
    intro i a b
    unfold forLoop
    rw [equalBody_swap]
    cases equalBody x_dim y_dim i (a, b) with
    | error e => rfl
    | ok st =>
      obtain ⟨a1, b1⟩ := st
      exact ih (i + 1) a1 b1

/-- Exchanging the operands of shape resolution exchanges the two aligned
vectors and keeps the error. -/
theorem resolve_swap (n : Nat) (x_dim y_dim : List Int) (axis : Int) :
    resolveShapes n y_dim x_dim axis = (resolveShapes n x_dim y_dim axis).map Prod.swap := by
  by_cases hxy : x_dim.length = y_dim.length
  · simp only [resolveShapes, if_pos hxy, if_pos hxy.symm]
    rw [← hxy]
    exact equal_loop_swap x_dim y_dim x_dim.length 0 _ _
  · have hyx : ¬ y_dim.length = x_dim.length := fun h => hxy h.symm
    by_cases hlt : y_dim.length < x_dim.length
    · have hng : ¬ x_dim.length < y_dim.length := by omega
      simp only [resolveShapes, if_neg hxy, if_neg hyx, gt_iff_lt, if_pos hlt, if_neg hng]
      cases set_shape axis (List.replicate n 1) (List.replicate n 1) x_dim y_dim with
      | error e => rfl
      | ok r => obtain ⟨a, b⟩ := r; rfl
    · have hgt : x_dim.length < y_dim.length := by omega
      simp only [resolveShapes, if_neg hxy, if_neg hyx, gt_iff_lt, if_pos hgt, if_neg hlt]
      cases set_shape axis (List.replicate n 1) (List.replicate n 1) y_dim x_dim with
      | error e => rfl
      | ok r => obtain ⟨a, b⟩ := r; rfl

/-! ## Aligned vectors as lists -/

theorem getElem?_eq_some_getD (l : List Int) (p : Nat) (h : p < l.length) :
    l[p]? = some (l.getD p 1) := by
  rw [List.getD_eq_getElem?_getD, List.getElem?_eq_getElem h]
  simp

theorem list_eq_of_pointwise (v w : List Int) (n0 : Nat) (hv : v.length = n0)
    (hw : w.length = n0) (h : ∀ p, p < n0 → v[p]? = w[p]?) : v = w := by
  apply List.ext_getElem?
  intro p
  by_cases hp : p < n0
  · exact h p hp
  · rw [List.getElem?_eq_none (by omega), List.getElem?_eq_none (by omega)]

/-- A vector of length `n0` that holds the unconverted shape at offset 0 and 1
elsewhere is the shape itself when `n0` is the rank. -/
theorem copied_eq (v dim : List Int) (hv : v.length = dim.length) (hd : DimsFit dim)
    (h : ∀ p, p < dim.length → v[p]? = some (padAt dim p)) : v = dim := by
  apply list_eq_of_pointwise v dim dim.length hv rfl
  intro p hp
  rw [h p hp, padAt_of_fits dim hd, getElem?_eq_some_getD dim p hp]

/-- Reading the placed smaller shape: the entries at `off + j` are its
dimensions, the other entries are 1. -/
theorem placed_read (ss smaller : List Int) (n0 off : Nat) (hlen : ss.length = n0)
    (hoff : off + smaller.length ≤ n0) (hs : DimsFit smaller)
    (hpt : ∀ p, p < n0 → ss[p]? = some (if off ≤ p then padAt smaller (p - off) else 1)) :
    ss.length = n0 ∧ (∀ j, j < smaller.length → ss[off + j]? = smaller[j]?) ∧
      (∀ p, p < n0 → (p < off ∨ off + smaller.length ≤ p) → ss[p]? = some 1) := by
  refine ⟨hlen, fun j hj => ?_, fun p hp hout => ?_⟩
  · rw [hpt (off + j) (by omega), if_pos (by omega), padAt_of_fits smaller hs,
      getElem?_eq_some_getD smaller j hj]
    congr 2
    omega
  · rw [hpt p hp]
    by_cases h1 : off ≤ p
    · rw [if_pos h1, padAt_beyond smaller _ (by omega)]
    · rw [if_neg h1]

/-! ## Claims -/

/-- C1: for every input whose indices are in range (the output rank holds both
ranks, the axis is -1 or non-negative with the smaller shape ending inside the
output rank, ranks and dimension sizes fit a 32-bit int), shape resolution
fails with the shape check if and only if at some aligned position the two
operand dimensions differ and neither of them is 1; otherwise it succeeds. -/
theorem shape_error_iff_mismatch (outRank : Nat) (x_dim y_dim : List Int) (axis : Int)
    (hr : AxisInRange outRank x_dim y_dim axis) (hx : DimsFit x_dim) (hy : DimsFit y_dim) :
    (resolveShapes outRank x_dim y_dim axis = .error .shapeCheck ↔ Mismatch x_dim y_dim axis) ∧
      (¬ Mismatch x_dim y_dim axis →
        ∃ x_shape y_shape, resolveShapes outRank x_dim y_dim axis = .ok (x_shape, y_shape)) := by
  obtain ⟨larger, smaller, off, hm, hfit, hok, hfail⟩ := resolve_cases outRank x_dim y_dim axis hr
  obtain ⟨hl, hs⟩ := hfit hx hy
  have hsucc : ¬ Mismatch x_dim y_dim axis →
      ∃ x_shape y_shape, resolveShapes outRank x_dim y_dim axis = .ok (x_shape, y_shape) :=
    fun hno => hok (checks_pass_of_no_mismatch larger smaller off (fun h => hno (hm.2 h)))
  refine ⟨⟨fun herr => ?_, fun hmis => ?_⟩, hsucc⟩
  · by_contra hno
    obtain ⟨a, b, hab⟩ := hsucc hno
    rw [hab] at herr
    cases herr
  · exact hfail ((mismatch_iff_check_fails larger smaller off hl hs).1 (hm.1 hmis))

/-- C1 at larger = [2,3], smaller = [4], axis = -1: the input is in range and
resolution fails with the shape check. -/
theorem shape_error_iff_mismatch_witness :
    AxisInRange 2 [2, 3] [4] (-1) ∧ Mismatch [2, 3] [4] (-1) ∧
      resolveShapes 2 [2, 3] [4] (-1) = .error .shapeCheck :=
  ⟨by decide, by decide,
    (shape_error_iff_mismatch 2 [2, 3] [4] (-1) (by decide) (by decide) (by decide)).1.2
      (by decide)⟩

/-- C2 (as stated, without a bound on the dimension sizes) fails at
larger = [2, 4294967297], smaller = [1], axis = -1, output rank 2: the shapes
are broadcast-compatible and resolution succeeds, but the aligned vector of
the larger operand is [2, 1], not the larger shape. -/
theorem right_align_counterexample :
    ¬ MismatchAt [2, 4294967297] [1] (2 - 1) ∧
      resolveShapes 2 [2, 4294967297] [1] (-1) = .ok ([2, 1], [1, 1]) ∧
      resolveShapes 2 [2, 4294967297] [1] (-1)
        ≠ .ok ([2, 4294967297], List.replicate (2 - 1) 1 ++ [1]) := by
  refine ⟨by decide, rfl, ?_⟩
  intro h
  have h2 : resolveShapes 2 [2, 4294967297] [1] (-1) = .ok ([2, 1], [1, 1]) := rfl
  rw [h2] at h
  injection h with h
  injection h with h3 _
  exact absurd h3 (by decide)

/-- C2, amended: for every pair of unequal-rank, broadcast-compatible shapes
whose dimension sizes fit a 32-bit int (and whose larger rank is representable
as an int), resolved with axis = -1 and the output rank equal to the larger
rank, the aligned vector of the smaller operand is (largerRank - smallerRank)
ones followed by the smaller shape, and the aligned vector of the larger
operand is the larger shape unchanged, whichever of X and Y is the larger. -/
theorem right_align_auto_axis (larger smaller : List Int)
    (hlt : smaller.length < larger.length) (hrank : larger.length < 2147483648)
    (hl : DimsFit larger) (hs : DimsFit smaller)
    (hcompat : ¬ MismatchAt larger smaller (larger.length - smaller.length)) :
    resolveShapes larger.length larger smaller (-1)
        = .ok (larger, List.replicate (larger.length - smaller.length) 1 ++ smaller) ∧
      resolveShapes larger.length smaller larger (-1)
        = .ok (List.replicate (larger.length - smaller.length) 1 ++ smaller, larger) := by
  have hr : AxisInRange larger.length larger smaller (-1) :=
    ⟨by simp only [max_le_iff]; omega, hrank, Or.inl rfl⟩
  have hoff : (axisEff larger.length smaller.length (-1)).toNat
      = larger.length - smaller.length := by
    unfold axisEff
    rw [if_pos rfl]
    omega
  have h := (resolve_xlarger larger.length larger smaller (-1) hlt hr).1
  rw [hoff] at h
  obtain ⟨xs, ys, hres, hxl, hyl, hxp, hyp⟩ :=
    h (checks_pass_of_no_mismatch larger smaller _ hcompat)
  have hx : xs = larger := copied_eq xs larger hxl hl hxp
  have hy : ys = List.replicate (larger.length - smaller.length) 1 ++ smaller := by
    obtain ⟨_, hin, hout⟩ := placed_read ys smaller larger.length
      (larger.length - smaller.length) hyl (by omega) hs hyp
    apply list_eq_of_pointwise ys _ larger.length hyl
      (by rw [List.length_append, List.length_replicate]; omega)
    intro p hp
    rw [List.getElem?_append]
    by_cases h1 : p < larger.length - smaller.length
    · rw [hout p hp (Or.inl h1), if_pos (by rw [List.length_replicate]; exact h1),
        List.getElem?_replicate, if_pos h1]
    · rw [if_neg (by rw [List.length_replicate]; exact h1), List.length_replicate]
      have := hin (p - (larger.length - smaller.length)) (by omega)
      rw [← this]
      congr 1
      omega
  subst hx
  subst hy
  refine ⟨hres, ?_⟩
  rw [resolve_swap, hres]
  rfl

/-- C2 (amended) at larger = [2,3,4,5], smaller = [4,5]: the smaller operand is
aligned to [1,1,4,5], as X or as Y. -/
theorem right_align_auto_axis_witness :
    resolveShapes 4 [2, 3, 4, 5] [4, 5] (-1) = .ok ([2, 3, 4, 5], [1, 1, 4, 5]) ∧
      resolveShapes 4 [4, 5] [2, 3, 4, 5] (-1) = .ok ([1, 1, 4, 5], [2, 3, 4, 5]) :=
  right_align_auto_axis [2, 3, 4, 5] [4, 5] (by decide) (by decide) (by decide) (by decide)
    (by decide)

/-- C3 (as stated, without a bound on the dimension sizes) fails at
larger = [2, 3], smaller = [4294967297], axis = 1, output rank 2: resolution
passes the check, but position 1 of the aligned vector of the smaller operand
holds 1, not the dimension 4294967297. -/
theorem explicit_axis_counterexample :
    resolveShapes 2 [2, 3] [4294967297] 1 = .ok ([2, 3], [1, 1]) ∧
      ([1, 1] : List Int)[1 + 0]? ≠ ([4294967297] : List Int)[0]? :=
  ⟨rfl, by decide⟩

/-- C3, amended: for every pair of unequal-rank shapes, the smaller one with
dimension sizes that fit a 32-bit int, resolved with an explicit axis = k
(k >= 0, k + len(smaller) <= outputRank, outputRank representable as an int)
that passes the compatibility check, the aligned vector of the smaller operand
has length outputRank, holds smaller[j] at position k + j for every j in
[0, len(smaller)), and holds 1 at every other position, whether the smaller
operand is Y or X. -/
theorem explicit_axis_placement (outRank k : Nat) (larger smaller : List Int)
    (hlt : smaller.length < larger.length) (hk : k + smaller.length ≤ outRank)
    (hrank : outRank < 2147483648) (hs : DimsFit smaller) :
    (∀ x_shape y_shape,
        resolveShapes outRank larger smaller (k : Int) = .ok (x_shape, y_shape) →
        y_shape.length = outRank ∧
          (∀ j, j < smaller.length → y_shape[k + j]? = smaller[j]?) ∧
          (∀ p, p < outRank → (p < k ∨ k + smaller.length ≤ p) → y_shape[p]? = some 1)) ∧
      (∀ x_shape y_shape,
        resolveShapes outRank smaller larger (k : Int) = .ok (x_shape, y_shape) →
        x_shape.length = outRank ∧
          (∀ j, j < smaller.length → x_shape[k + j]? = smaller[j]?) ∧
          (∀ p, p < outRank → (p < k ∨ k + smaller.length ≤ p) → x_shape[p]? = some 1)) := by
  have main : ∀ ls ss, resolveShapes outRank larger smaller (k : Int) = .ok (ls, ss) →
      ss.length = outRank ∧
        (∀ j, j < smaller.length → ss[k + j]? = smaller[j]?) ∧
        (∀ p, p < outRank → (p < k ∨ k + smaller.length ≤ p) → ss[p]? = some 1) := by
    intro ls ss hres
    have hne : ¬ larger.length = smaller.length := by omega
    have hL : larger.length ≤ outRank := by
      have hset : set_shape (k : Int) (List.replicate outRank 1) (List.replicate outRank 1)
          larger smaller = .ok (ls, ss) := by
        simpa only [resolveShapes, if_neg hne, gt_iff_lt, if_pos hlt] using hres
      unfold set_shape at hset
      simp only at hset
      split at hset
      · cases hset
      · rename_i _ ls1 hc
        have := (copy_loop_inv larger _ ls1 hc).2
        rwa [List.length_replicate] at this
    have hr : AxisInRange outRank larger smaller (k : Int) := by
      refine ⟨by simp only [max_le_iff]; omega, hrank, Or.inr ⟨by omega, ?_⟩⟩
      have hmin : min larger.length smaller.length = smaller.length := by omega
      rw [hmin]
      omega
    have hoff : (axisEff larger.length smaller.length (k : Int)).toNat = k := by
      unfold axisEff
      rw [if_neg (by omega)]
      omega
    have h := resolve_xlarger outRank larger smaller (k : Int) hlt hr
    rw [hoff] at h
    by_cases hc : ∃ j, j < smaller.length ∧
        ¬ compatible (padAt larger (k + j)) (padAt smaller j)
    · rw [h.2 hc] at hres
      cases hres
    · obtain ⟨xs, ys, hres', _, hyl, _, hyp⟩ := h.1 (fun j hj => by
        by_contra hno
        exact hc ⟨j, hj, hno⟩)
      rw [hres'] at hres
      injection hres with hres
      injection hres with _ h2
      subst h2
      exact placed_read ys smaller outRank k hyl hk hs hyp
  refine ⟨main, fun x_shape y_shape hres => main y_shape x_shape ?_⟩
  rw [resolve_swap, hres]
  rfl

/-- C3 (amended) at larger = [2,3,4], smaller = [3], axis = 1: the aligned
vector of the smaller operand is [1,3,1]. -/
theorem explicit_axis_placement_witness :
    ([1, 3, 1] : List Int).length = 3 ∧
      (∀ j, j < ([3] : List Int).length →
        ([1, 3, 1] : List Int)[1 + j]? = ([3] : List Int)[j]?) ∧
      (∀ p, p < 3 → (p < 1 ∨ 1 + ([3] : List Int).length ≤ p) →
        ([1, 3, 1] : List Int)[p]? = some 1) :=
  (explicit_axis_placement 3 1 [2, 3, 4] [3] (by decide) (by decide) (by decide)
    (by decide)).1 [2, 3, 4] [1, 3, 1] rfl

/-- C4 (as stated, without a bound on the dimension sizes) fails at
X = [4294967297], Y = [4294967297]: the dimensions are equal and resolution
succeeds, but both aligned vectors are [1]. -/
theorem equal_rank_counterexample :
    ¬ MismatchAt [4294967297] [4294967297] 0 ∧
      resolveShapes 1 [4294967297] [4294967297] 0 = .ok ([1], [1]) ∧
      ([1] : List Int) ≠ [4294967297] :=
  ⟨by decide, rfl, by decide⟩

/-- C4, amended: for every pair of equal-rank shapes whose dimension sizes fit
a 32-bit int (with the output rank equal to the common rank) in which every
dimension pair is equal or has a 1 on one side, shape resolution succeeds and
returns both inputs unchanged, for any value of axis. -/
theorem equal_rank_unchanged (x_dim y_dim : List Int) (axis : Int)
    (hxy : x_dim.length = y_dim.length) (hx : DimsFit x_dim) (hy : DimsFit y_dim)
    (hcompat : ¬ MismatchAt x_dim y_dim 0) :
    resolveShapes x_dim.length x_dim y_dim axis = .ok (x_dim, y_dim) := by
  have h := (resolve_equal x_dim.length x_dim y_dim axis hxy (Nat.le_refl _)).1
    (checks_pass_of_no_mismatch x_dim y_dim 0 hcompat)
  obtain ⟨xs, ys, hres, hxl, hyl, hxp, hyp⟩ := h
  have h1 : xs = x_dim := copied_eq xs x_dim hxl hx hxp
  have h2 : ys = y_dim :=
    copied_eq ys y_dim (by rw [hyl, hxy]) hy (fun p hp => hyp p (by omega))
  rw [hres, h1, h2]

/-- C4 (amended) at X = [5], Y = [5] with axis = 7: resolved unchanged. -/
theorem equal_rank_unchanged_witness :
    resolveShapes 1 [5] [5] 7 = .ok ([5], [5]) :=
  equal_rank_unchanged [5] [5] 7 (by decide) (by decide) (by decide) (by decide)

/-- C5: whenever shape resolution succeeds (in either branch, for any axis),
both returned vectors have length exactly outputRank and at every position
i in [0, outputRank) the pair satisfies a[i] == b[i] or a[i] == 1 or
b[i] == 1. -/
theorem aligned_pair_invariant (outRank : Nat) (x_dim y_dim : List Int) (axis : Int)
    (a b : List Int) (h : resolveShapes outRank x_dim y_dim axis = .ok (a, b)) :
    a.length = outRank ∧ b.length = outRank ∧
      ∀ i, i < outRank → ∃ u v, a[i]? = some u ∧ b[i]? = some v ∧ (u = v ∨ u = 1 ∨ v = 1) := by
  unfold resolveShapes at h
  simp only at h
  split at h
  · exact equal_loop_pair_inv outRank _ x_dim y_dim a b h
  · split at h
    · exact set_shape_pair_inv axis outRank x_dim y_dim a b h
    · split at h
      · cases h
      · rename_i _ ys xs hset
        injection h with h
        injection h with h1 h2
        subst h1; subst h2
        obtain ⟨hl1, hl2, hpt⟩ := set_shape_pair_inv axis outRank y_dim x_dim ys xs hset
        refine ⟨hl2, hl1, fun i hi => ?_⟩
        obtain ⟨u, v, hu, hv, huv⟩ := hpt i hi
        exact ⟨v, u, hv, hu, (compatible_comm u v).1 huv⟩

/-- C5 at X = [2,1,4], Y = [3,4], axis = -1, output rank 3: resolution succeeds
with [2,1,4] and [1,3,4], which satisfy the invariant. -/
theorem aligned_pair_invariant_witness :
    resolveShapes 3 [2, 1, 4] [3, 4] (-1) = .ok ([2, 1, 4], [1, 3, 4]) ∧
      ([2, 1, 4] : List Int).length = 3 ∧ ([1, 3, 4] : List Int).length = 3 ∧
      ∀ i, i < 3 → ∃ u v, ([2, 1, 4] : List Int)[i]? = some u ∧
        ([1, 3, 4] : List Int)[i]? = some v ∧ (u = v ∨ u = 1 ∨ v = 1) :=
  ⟨by rfl, aligned_pair_invariant 3 [2, 1, 4] [3, 4] (-1) [2, 1, 4] [1, 3, 4] (by rfl)⟩

/-- C7: under the input precondition (the output rank holds both ranks and is
representable as an int; axis = -1, or axis >= 0 with axis + smallerRank <=
outputRank), no access of shape resolution leaves the vectors: the run never
ends in the out-of-range case, in the equal-rank loop and in `set_shape`
alike. -/
theorem indices_stay_in_range (outRank : Nat) (x_dim y_dim : List Int) (axis : Int)
    (hr : AxisInRange outRank x_dim y_dim axis) :
    resolveShapes outRank x_dim y_dim axis ≠ .error .outOfRange := by
  obtain ⟨larger, smaller, off, _, _, hok, hfail⟩ := resolve_cases outRank x_dim y_dim axis hr
  by_cases hc : ∃ j, j < smaller.length ∧
      ¬ compatible (padAt larger (off + j)) (padAt smaller j)
  · rw [hfail hc]
    intro h
    cases h
  · obtain ⟨xs, ys, hres⟩ := hok (fun j hj => by
      by_contra hno
      exact hc ⟨j, hj, hno⟩)
    rw [hres]
    intro h
    cases h

/-- C7 at X = [2,3,4], Y = [3], axis = 1, output rank 3. -/
theorem indices_stay_in_range_witness :
    AxisInRange 3 [2, 3, 4] [3] 1 ∧ resolveShapes 3 [2, 3, 4] [3] 1 ≠ .error .outOfRange :=
  ⟨by decide, indices_stay_in_range 3 [2, 3, 4] [3] 1 (by decide)⟩

/-- C8 (as stated) fails for Pow: the registered table has an int32 and an
int64 entry for elementwise_pow. -/
theorem pow_has_integer_kernels :
    (∃ r, r ∈ registry ∧ r.op = OpName.elementwise_pow ∧ r.kernel.T = ElemType.int) ∧
      (∃ r, r ∈ registry ∧ r.op = OpName.elementwise_pow ∧ r.kernel.T = ElemType.int64_t) :=
  ⟨⟨Registration.mk .elementwise_pow .kFloat PowInt32 "int32" (some .kInt32),
      by decide, rfl, rfl⟩,
    ⟨Registration.mk .elementwise_pow .kFloat PowInt64 "int64" (some .kInt64),
      by decide, rfl, rfl⟩⟩

/-- C8, amended: in the registered table each operator supports a fixed,
operator-specific list of element types, and Div omits the int32/int64
variants that other operators support: elementwise_div has float and float16
only, while elementwise_pow, like elementwise_add and elementwise_sub, has
float, float16, int32 and int64; elementwise_mul has no int32 entry, and
max, min, mod and floordiv have no int64 entry. -/
theorem capability_table :
    supportedTypes .elementwise_add = [.float, .float16, .int, .int64_t] ∧
      supportedTypes .elementwise_sub = [.float, .float16, .int, .int64_t] ∧
      supportedTypes .elementwise_mul = [.float, .float16, .int64_t] ∧
      supportedTypes .elementwise_div = [.float, .float16] ∧
      supportedTypes .elementwise_max = [.float, .float16, .int] ∧
      supportedTypes .elementwise_min = [.float, .float16, .int] ∧
      supportedTypes .elementwise_mod = [.float, .float16, .int] ∧
      supportedTypes .elementwise_floordiv = [.float, .float16, .int] ∧
      supportedTypes .elementwise_pow = [.float, .float16, .int, .int64_t] := by
  decide

/-- The example larger = [2,3], smaller = [3], axis = 2 on vectors of length 2
that are followed in memory by one accessible cell each (holding `behindL` and
`behindS`): the unchecked write of line 152 lands in the cell behind the smaller
vector, and the `CHECK_EQ` of line 153 then compares the cell behind the larger
vector with the written 3.  Whether the shape check fires there depends on
what that cell holds. -/
theorem set_shape_behind_depends (behindL behindS : Int) :
    set_shape 2 (List.replicate 2 1 ++ [behindL]) (List.replicate 2 1 ++ [behindS]) [2, 3] [3]
      = if compatible behindL 3 then .ok ([2, 3, behindL], [1, 1, 3])
        else .error .shapeCheck := by
  have hi : index 0 2 = 2 := by decide
  by_cases hc : behindL = 3 ∨ behindL = 1 <;>
    simp [set_shape, forLoop, copyBody, placeBody, dimAt, vset, vget, hi, castInt,
      compatible, hc]

/-- C9: shape resolution performs no bounds check on the axis: there are
unequal-rank inputs with an explicit axis and axis + len(smaller) > outputRank
on which `set_shape` accesses the aligned vectors outside [0, outputRank)
instead of reporting the shape check failure.  At larger = [2,3],
smaller = [1], axis = 2, outputRank = 2 the write of line 152 goes to index 2:
on vectors of exactly the output rank the run ends at that access, not in the
shape check; and when the cell behind each vector is accessible, as for the
unchecked `operator[]`, then whatever the two cells hold the `CHECK_EQ` of
line 153 passes and `set_shape` returns normally, having overwritten the cell
behind the smaller vector. -/
theorem axis_is_not_bounds_checked :
    ∃ (outRank : Nat) (larger smaller : List Int) (axis : Int),
      smaller.length < larger.length ∧ larger.length ≤ outRank ∧ 0 ≤ axis ∧
      (outRank : Int) < axis + (smaller.length : Int) ∧
      outRank ≤ index 0 axis ∧
      resolveShapes outRank larger smaller axis = .error .outOfRange ∧
      resolveShapes outRank larger smaller axis ≠ .error .shapeCheck ∧
      ∀ behindL behindS : Int,
        set_shape axis (List.replicate outRank 1 ++ [behindL])
            (List.replicate outRank 1 ++ [behindS]) larger smaller
          = .ok (larger ++ [behindL], List.replicate outRank 1 ++ [1]) := by
  refine ⟨2, [2, 3], [1], 2, by decide, by decide, by decide, by decide, by decide, rfl, ?_, ?_⟩
  · intro h
    have h2 : resolveShapes 2 [2, 3] [1] 2 = .error .outOfRange := rfl
    rw [h2] at h
    cases h
  · intro behindL behindS
    have hi : index 0 2 = 2 := by decide
    simp [set_shape, forLoop, copyBody, placeBody, dimAt, vset, vget, hi, castInt, compatible]

/-- C11: shape validation strictly precedes dispatch: on every input on which
shape resolution fails with the shape check, `Run` makes no functor call, ends
with that shape check failure, and leaves the output buffer exactly as it was
before the call, whatever the functor is: every other functor gives the same
result. -/
theorem shape_failure_precedes_dispatch {κ δ : Type}
    (elt_func : κ → δ → δ → δ → List Int → List Int → Int × δ) (ctx : κ)
    (param : ElementwiseParam δ)
    (hfail : resolveShapes param.Out.dims.length param.X.dims param.Y.dims param.axis
      = .error .shapeCheck) :
    (Run elt_func ctx param).calls = [] ∧
      (Run elt_func ctx param).out = param.Out.data ∧
      (Run elt_func ctx param).status = .error .shapeCheck ∧
      ∀ other : κ → δ → δ → δ → List Int → List Int → Int × δ,
        Run other ctx param = Run elt_func ctx param := by
  have hrun : ∀ f : κ → δ → δ → δ → List Int → List Int → Int × δ,
      Run f ctx param = RunResult.mk (.error .shapeCheck) param.Out.data [] := by
    intro f
    simp only [Run, hfail]
  refine ⟨?_, ?_, ?_, fun other => ?_⟩
  · rw [hrun elt_func]
  · rw [hrun elt_func]
  · rw [hrun elt_func]
  · rw [hrun other, hrun elt_func]

/-- C11 at X = [2,3], Y = [4], Out of rank 2 holding 0, axis = -1, with a stub
that would return 0 and write 7: resolution fails the shape check, the stub is
not called and the output buffer still holds 0. -/
theorem shape_failure_precedes_dispatch_witness :
    resolveShapes 2 [2, 3] [4] (-1) = .error .shapeCheck ∧
      (Run (fun (_ : Unit) (_ _ _ : Nat) (_ _ : List Int) => ((0 : Int), 7)) ()
        (ElementwiseParam.mk (Tensor.mk [2, 3] 0) (Tensor.mk [4] 0)
          (Tensor.mk [2, 3] 0) (-1))).calls = [] ∧
      (Run (fun (_ : Unit) (_ _ _ : Nat) (_ _ : List Int) => ((0 : Int), 7)) ()
        (ElementwiseParam.mk (Tensor.mk [2, 3] 0) (Tensor.mk [4] 0)
          (Tensor.mk [2, 3] 0) (-1))).out = 0 :=
  match shape_failure_precedes_dispatch
      (fun (_ : Unit) (_ _ _ : Nat) (_ _ : List Int) => ((0 : Int), 7)) ()
      (ElementwiseParam.mk (Tensor.mk [2, 3] 0) (Tensor.mk [4] 0)
        (Tensor.mk [2, 3] 0) (-1)) (by rfl) with
  | ⟨h1, h2, _⟩ => ⟨by rfl, h1, h2⟩

end ElementwiseXpu
